import Mathlib

/-!
Shallow embedding of the core logic of `app/services/aws_service.py`
(credential-and-mode resolution, live-call fallback, and the response
reshapers) together with proofs about it.

Monetary amounts are modelled as rationals (`ℚ`); Python's
`round(x, 2)` is modelled as round-half-to-even at two decimal places.
Python dictionaries are modelled as insertion-ordered association lists.
-/

namespace AwsBill

/-- Python truthiness for an optional string (`None` and `""` are falsy). -/
def truthy : Option String → Bool
  | none => false
  | some s => !(s == "")

/-- Python `a or b` on optional strings: `b` when `a` is falsy. -/
def pyOr (a b : Option String) : Option String :=
  if truthy a then a else b

/-- Python `str.lower()` restricted to the char-wise ASCII lowering used
for the boolean env flags. -/
def pyLower (s : String) : String :=
  ⟨s.data.map Char.toLower⟩

/-- `os.environ.get(name, 'false').lower() == 'true'` for a flag whose raw
value is `v` (`none` when the variable is unset). -/
def envFlag (v : Option String) : Bool :=
  pyLower (v.getD "false") == "true"

/-- Snapshot of the process environment variables consulted by
`aws_service.py`.  `none` means the variable is unset. -/
structure Env where
  useDemoData : Option String
  awsAccessKeyId : Option String
  awsSecretAccessKey : Option String
  awsRegion : Option String
  fallbackToDemo : Option String
deriving DecidableEq

/-- The data-source decision reached by a report operation before any
live call is attempted. -/
inductive Decision where
  | synthetic
  | credsError
  | live (accessKey secretKey region : String)
deriving DecidableEq

/-- Decision logic of `get_aws_cost_and_usage` (the combined billing
operation): `force_demo` check, then the `USE_DEMO_DATA` env branch
(only when no direct credentials), then credential resolution with
`FALLBACK_TO_DEMO` on missing keys. -/
def resolveCombined (accessKey secretKey : Option String) (forceDemo : Bool)
    (env : Env) : Decision :=
  if forceDemo then .synthetic
  else if !(accessKey.isSome && secretKey.isSome) && envFlag env.useDemoData then
    .synthetic
  else
    let finalAccessKey := pyOr accessKey env.awsAccessKeyId
    let finalSecretKey := pyOr secretKey env.awsSecretAccessKey
    let finalRegion := env.awsRegion.getD "us-east-1"
    if !truthy finalAccessKey || !truthy finalSecretKey then
      if envFlag env.fallbackToDemo then .synthetic else .credsError
    else
      .live (finalAccessKey.getD "") (finalSecretKey.getD "") finalRegion

/-- Decision logic shared verbatim by `get_aws_daily_usage`,
`get_daily_cost`, `get_service_cost`, `get_region_cost`,
`get_region_service_breakdown` and `get_aws_resource_usage`: `force_demo`
check, then credential resolution with `FALLBACK_TO_DEMO` on missing
keys; none of these consults `USE_DEMO_DATA`. -/
def resolveStandard (accessKey secretKey : Option String) (forceDemo : Bool)
    (env : Env) : Decision :=
  if forceDemo then .synthetic
  else
    let finalAccessKey := pyOr accessKey env.awsAccessKeyId
    let finalSecretKey := pyOr secretKey env.awsSecretAccessKey
    let finalRegion := env.awsRegion.getD "us-east-1"
    if !truthy finalAccessKey || !truthy finalSecretKey then
      if envFlag env.fallbackToDemo then .synthetic else .credsError
    else
      .live (finalAccessKey.getD "") (finalSecretKey.getD "") finalRegion

/-- The seven report-producing operations of `aws_service.py`. -/
inductive ReportOp where
  | combined          -- get_aws_cost_and_usage
  | dailyUsage        -- get_aws_daily_usage
  | dailyCost         -- get_daily_cost
  | serviceCost       -- get_service_cost
  | regionCost        -- get_region_cost
  | regionServiceBreakdown  -- get_region_service_breakdown
  | resourceUsage     -- get_aws_resource_usage
deriving DecidableEq

/-- The data-source decision made by each report operation. -/
def resolveOp : ReportOp → Option String → Option String → Bool → Env → Decision
  | .combined => resolveCombined
  | .dailyUsage => resolveStandard
  | .dailyCost => resolveStandard
  | .serviceCost => resolveStandard
  | .regionCost => resolveStandard
  | .regionServiceBreakdown => resolveStandard
  | .resourceUsage => resolveStandard

/-- Outcome of a full operation run, including the live-call attempt. -/
inductive Outcome where
  | synthetic
  | liveOk
  | credsError
  | providerError
deriving DecidableEq

/-- Full control flow of a report operation: the resolver's decision, and
on a live attempt the `try/except` block whose handler consults
`FALLBACK_TO_DEMO` (`liveFails = true` models the provider call raising). -/
def runOp (op : ReportOp) (accessKey secretKey : Option String)
    (forceDemo : Bool) (env : Env) (liveFails : Bool) : Outcome :=
  match resolveOp op accessKey secretKey forceDemo env with
  | .synthetic => .synthetic
  | .credsError => .credsError
  | .live _ _ _ =>
    if liveFails then
      if envFlag env.fallbackToDemo then .synthetic else .providerError
    else
      .liveOk

/-- Round-half-to-even to an integer (the tie-breaking rule of Python's
built-in `round`). -/
def roundHalfEven (q : ℚ) : ℤ :=
  let f := ⌊q⌋
  if q - f < 1/2 then f
  else if 1/2 < q - f then f + 1
  else if f % 2 = 0 then f else f + 1

/-- Python's `round(x, 2)` on amounts modelled as rationals. -/
def round2 (q : ℚ) : ℚ :=
  (roundHalfEven (q * 100) : ℚ) / 100

/-- Lookup in an insertion-ordered association list (a Python dict). -/
def alookup {α : Type} : List (String × α) → String → Option α
  | [], _ => none
  | (k, v) :: t, r => if k = r then some v else alookup t r

/-- The dict pattern `if k not in d: d[k] = dflt` followed by
`d[k] = f(d[k])`, preserving insertion order. -/
def aupd {α : Type} (m : List (String × α)) (k : String) (dflt : α)
    (f : α → α) : List (String × α) :=
  match m with
  | [] => [(k, f dflt)]
  | (k', v) :: t => if k' = k then (k', f v) :: t else (k', v) :: aupd t k dflt f

/-- Plain dict assignment `d[k] = v` (insert or overwrite). -/
def aset {α : Type} (m : List (String × α)) (k : String) (v : α) :
    List (String × α) :=
  match m with
  | [] => [(k, v)]
  | (k', v') :: t => if k' = k then (k', v) :: t else (k', v') :: aset t k v

/-- Sum of the values of an association list of amounts. -/
def sumVals (m : List (String × ℚ)) : ℚ := (m.map (·.2)).sum

/-- A raw `TimePeriod` (`Start`/`End` of a result bucket; `End` is a Lean
keyword, hence `stop`). -/
structure TimePeriod where
  start : String
  stop : String
deriving DecidableEq

/-- One entry of `ResultsByTime`: a time bucket with its groups. -/
structure Bucket (G : Type) where
  period : TimePeriod
  groups : List G
deriving DecidableEq

/-- All groups of a raw report, in bucket order. -/
def allGroups {G : Type} : List (Bucket G) → List G
  | [] => []
  | b :: bs => b.groups ++ allGroups bs

/-- `results_by_time[-1]` of the non-empty list `b :: bs`. -/
def lastBucket {G : Type} (b : Bucket G) : List (Bucket G) → Bucket G
  | [] => b
  | b' :: t => lastBucket b' t

/-- A cost group: `Keys = key0 :: keyRest` (the raw `Keys` list is never
empty for a grouped query) and the single metric `Amount` parsed to a
rational. -/
structure CostGroup where
  key0 : String
  keyRest : List String
  amount : ℚ
deriving DecidableEq

/-- `keys[1] if len(keys) > 1 else "Unknown"`. -/
def svcName (g : CostGroup) : String :=
  match g.keyRest with
  | k :: _ => k
  | [] => "Unknown"

/-- One region's entry: `{'total': ..., 'services': {...}}`. -/
structure RegionEntry where
  total : ℚ
  services : List (String × ℚ)
deriving DecidableEq

/-- Output of `format_aws_response_detailed`.  The consolidated entry
`{'total': v}` is modelled as the bare amount `v`. -/
structure DetailedData where
  total_cost : ℚ
  regions : List (String × RegionEntry)
  consolidated : List (String × ℚ)
  period : TimePeriod
deriving DecidableEq

/-- The initial `formatted_data` dict of `format_aws_response_detailed`. -/
def emptyDetailed : DetailedData := ⟨0, [], [], ⟨"", ""⟩⟩

/-- Body of the group loop of `format_aws_response_detailed`. -/
def detailedStep (st : DetailedData) (g : CostGroup) : DetailedData :=
  let region := g.key0
  let service := svcName g
  let amount := g.amount
  { st with
    regions := aupd st.regions region ⟨0, []⟩
      (fun e => ⟨e.total + amount, aupd e.services service 0 (· + amount)⟩),
    consolidated := aupd st.consolidated service 0 (· + amount),
    total_cost := st.total_cost + amount }

/-- `for result in results_by_time: for group in result['Groups']: ...` -/
def foldBuckets {G S : Type} (step : S → G → S) (st : S)
    (bs : List (Bucket G)) : S :=
  bs.foldl (fun acc b => b.groups.foldl step acc) st

/-- State of `format_aws_response_detailed` after the accumulation loops,
before the rounding pass. -/
def detailedAccum (buckets : List (Bucket CostGroup)) : DetailedData :=
  match buckets with
  | [] => emptyDetailed
  | b :: bs =>
    let st0 := { emptyDetailed with
      period := ⟨b.period.start, (lastBucket b bs).period.stop⟩ }
    foldBuckets detailedStep st0 (b :: bs)

/-- The final rounding pass of `format_aws_response_detailed`. -/
def roundDetailed (st : DetailedData) : DetailedData :=
  { total_cost := round2 st.total_cost,
    regions := st.regions.map (fun p =>
      (p.1, ⟨round2 p.2.total, p.2.services.map (fun q => (q.1, round2 q.2))⟩)),
    consolidated := st.consolidated.map (fun p => (p.1, round2 p.2)),
    period := st.period }

/-- `format_aws_response_detailed` (empty `ResultsByTime` returns the
zero shape before any period or rounding logic runs). -/
def format_aws_response_detailed (buckets : List (Bucket CostGroup)) :
    DetailedData :=
  match buckets with
  | [] => emptyDetailed
  | b :: bs => roundDetailed (detailedAccum (b :: bs))

/-- Output of the formatting section of `get_region_service_breakdown`. -/
structure BreakdownData where
  total_cost : ℚ
  regions : List (String × RegionEntry)
deriving DecidableEq

/-- Body of the group loop of `get_region_service_breakdown`: the region
total accumulates unrounded, but the per-service cell is overwritten
with the group's amount rounded at assignment time
(`regions[region]['services'][service] = round(amount, 2)`). -/
def breakdownStep (st : BreakdownData) (g : CostGroup) : BreakdownData :=
  let region := g.key0
  let service := svcName g
  let amount := g.amount
  { regions := aupd st.regions region ⟨0, []⟩
      (fun e => ⟨e.total + amount, aset e.services service (round2 amount)⟩),
    total_cost := st.total_cost + amount }

/-- The response-formatting part of `get_region_service_breakdown`
(region totals and `total_cost` rounded at the end; service cells were
already rounded per group). -/
def breakdownFormat (buckets : List (Bucket CostGroup)) : BreakdownData :=
  let st := foldBuckets breakdownStep ⟨0, []⟩ buckets
  { total_cost := round2 st.total_cost,
    regions := st.regions.map (fun p =>
      (p.1, ⟨round2 p.2.total, p.2.services⟩)) }

/-- Python's `str.split(sep)` on the character list of a string. -/
def pySplit (sep : Char) : List Char → List (List Char)
  | [] => [[]]
  | c :: cs =>
    match pySplit sep cs with
    | [] => [[]]
    | p :: ps => if c = sep then [] :: p :: ps else (c :: p) :: ps

/-- `[-1]` on the (always non-empty) part list produced by `pySplit`. -/
def pyLast : List (List Char) → List Char
  | [] => []
  | [p] => p
  | _ :: t => pyLast t

/-- `usage_type.split(':')[-1] if ':' in usage_type else usage_type`. -/
def componentOf (s : String) : String :=
  if ':' ∈ s.data then ⟨pyLast (pySplit ':' s.data)⟩ else s

/-- A resource-usage group: `Keys = [service, usageType]` and the two
metrics `UsageQuantity` (amount and unit) and `AmortizedCost`. -/
structure UsageGroup where
  service : String
  usageType : String
  usage : ℚ
  cost : ℚ
  unit : String
deriving DecidableEq

/-- One usage line item as emitted by `format_usage_response`. -/
structure UsageItem where
  component : String
  count : ℚ
  cost : ℚ
  unit : String
deriving DecidableEq

/-- The consolidated accumulator cell `{'count':…, 'cost':…, 'unit':…}`. -/
structure ConsAccum where
  count : ℚ
  cost : ℚ
  unit : String
deriving DecidableEq

/-- Accumulation state of `format_usage_response` before the final
consolidated-to-list conversion. -/
structure UsageAccum where
  regions : List (String × List (String × List UsageItem))
  consolidated : List (String × List (String × ConsAccum))
deriving DecidableEq

/-- Body of the group loop of `format_usage_response`, including the
`if usage_amount == 0 and cost_amount == 0: continue` filter and the
fixed `"Global/Linked"` region. -/
def usageStep (st : UsageAccum) (g : UsageGroup) : UsageAccum :=
  if g.usage = 0 ∧ g.cost = 0 then st
  else
    let region := "Global/Linked"
    let component := componentOf g.usageType
    { regions := aupd st.regions region []
        (fun m => aupd m g.service []
          (fun items => items ++ [⟨component, round2 g.usage, round2 g.cost, g.unit⟩])),
      consolidated := aupd st.consolidated g.service []
        (fun m => aupd m component ⟨0, 0, g.unit⟩
          (fun c => ⟨c.count + g.usage, c.cost + g.cost, c.unit⟩)) }

/-- Output of `format_usage_response`. -/
structure UsageData where
  regions : List (String × List (String × List UsageItem))
  consolidated : List (String × List UsageItem)
  period : TimePeriod
deriving DecidableEq

/-- The initial `formatted_data` dict of `format_usage_response`. -/
def emptyUsage : UsageData := ⟨[], [], ⟨"", ""⟩⟩

/-- `format_usage_response`: accumulate, then convert the consolidated
nested dicts to lists, rounding `count` and `cost` once. -/
def format_usage_response (buckets : List (Bucket UsageGroup)) : UsageData :=
  match buckets with
  | [] => emptyUsage
  | b :: bs =>
    let st := foldBuckets usageStep ⟨[], []⟩ (b :: bs)
    { regions := st.regions,
      consolidated := st.consolidated.map (fun p =>
        (p.1, p.2.map (fun q => ⟨q.1, round2 q.2.count, round2 q.2.cost, q.2.unit⟩))),
      period := ⟨b.period.start, (lastBucket b bs).period.stop⟩ }

/-- The per-service cell of a region in a breakdown-style structure:
`regions[r]['services'][s]` when both keys are present. -/
def svcVal (st : BreakdownData) (r s : String) : Option ℚ :=
  (alookup st.regions r).bind (fun e => alookup e.services s)

/-- The reconciliation invariant of the combined billing accumulator:
every region's (unrounded) total equals the sum of its (unrounded)
per-service cells. -/
def regInv (st : DetailedData) : Prop :=
  ∀ r e, alookup st.regions r = some e → e.total = sumVals e.services

/-- Whether a resource-usage group survives the
`if usage_amount == 0 and cost_amount == 0: continue` filter. -/
def keepGroup (g : UsageGroup) : Bool :=
  !(g.usage == 0 && g.cost == 0)

/-- A raw usage report with the both-zero groups removed from every
bucket (buckets themselves are kept, so the period is unchanged). -/
def filterZeros (buckets : List (Bucket UsageGroup)) : List (Bucket UsageGroup) :=
  buckets.map (fun b => ⟨b.period, b.groups.filter keepGroup⟩)

/-- The last element of a list satisfying a predicate. -/
def lastMatch {G : Type} (p : G → Bool) : List G → Option G
  | [] => none
  | g :: t =>
    match lastMatch p t with
    | some g' => some g'
    | none => if p g then some g else none

/-- Whether a cost group carries the given (region, service) key pair. -/
def matchKeys (r s : String) (g : CostGroup) : Bool :=
  g.key0 == r && svcName g == s

/-! ### Evaluation lemmas for `round2` -/

theorem roundHalfEven_eq_low (q : ℚ) (k : ℤ) (h1 : (k : ℚ) ≤ q)
    (h2 : q - k < 1/2) : roundHalfEven q = k := by
  have hf : ⌊q⌋ = k := by
    rw [Int.floor_eq_iff]
    exact ⟨h1, by linarith⟩
  simp only [roundHalfEven, hf]
  rw [if_pos h2]

theorem roundHalfEven_eq_high (q : ℚ) (k : ℤ) (h1 : (k : ℚ) ≤ q)
    (h2 : q < k + 1) (h3 : 1/2 < q - k) : roundHalfEven q = k + 1 := by
  have hf : ⌊q⌋ = k := by
    rw [Int.floor_eq_iff]
    exact ⟨h1, by linarith⟩
  simp only [roundHalfEven, hf]
  rw [if_neg (by linarith), if_pos h3]

theorem round2_eq_low (q : ℚ) (k : ℤ) (h1 : (k : ℚ) ≤ q * 100)
    (h2 : q * 100 - k < 1/2) : round2 q = (k : ℚ) / 100 := by
  rw [round2, roundHalfEven_eq_low _ k h1 h2]

theorem round2_eq_high (q : ℚ) (k : ℤ) (h1 : (k : ℚ) ≤ q * 100)
    (h2 : q * 100 < k + 1) (h3 : 1/2 < q * 100 - k) :
    round2 q = ((k : ℚ) + 1) / 100 := by
  rw [round2, roundHalfEven_eq_high _ k h1 h2 h3]
  push_cast
  ring

theorem round2_zero : round2 0 = 0 := by
  rw [round2_eq_low 0 0 (by norm_num) (by norm_num)]
  norm_num

/-! ### Association-list lemmas -/

theorem alookup_aupd {α : Type} (m : List (String × α)) (k : String)
    (dflt : α) (f : α → α) (r : String) :
    alookup (aupd m k dflt f) r =
      if k = r then some (f ((alookup m k).getD dflt)) else alookup m r := by
  induction m with
  | nil =>
    by_cases h : k = r <;> simp [aupd, alookup, h]
  | cons p t ih =>
    obtain ⟨k', v⟩ := p
    by_cases hk : k' = k
    · subst hk
      by_cases hr : k' = r <;> simp [aupd, alookup, hr, ih]
    · by_cases hr : k' = r
      · subst hr
        have hne : ¬k = k' := fun h => hk h.symm
        simp [aupd, alookup, hk, hne]
      · simp [aupd, alookup, hk, hr, ih]

theorem alookup_aset {α : Type} (m : List (String × α)) (k : String)
    (v : α) (r : String) :
    alookup (aset m k v) r = if k = r then some v else alookup m r := by
  induction m with
  | nil =>
    by_cases h : k = r <;> simp [aset, alookup, h]
  | cons p t ih =>
    obtain ⟨k', v'⟩ := p
    by_cases hk : k' = k
    · subst hk
      by_cases hr : k' = r <;> simp [aset, alookup, hr, ih]
    · by_cases hr : k' = r
      · subst hr
        have hne : ¬k = k' := fun h => hk h.symm
        simp [aset, alookup, hk, hne]
      · simp [aset, alookup, hk, hr, ih]

theorem alookup_map {α β : Type} (g : α → β) (m : List (String × α))
    (r : String) :
    alookup (m.map (fun p => (p.1, g p.2))) r = (alookup m r).map g := by
  induction m with
  | nil => simp [alookup]
  | cons p t ih =>
    obtain ⟨k, v⟩ := p
    by_cases h : k = r <;> simp [alookup, h, ih]

theorem sumVals_aupd (m : List (String × ℚ)) (k : String) (a : ℚ) :
    sumVals (aupd m k 0 (· + a)) = sumVals m + a := by
  induction m with
  | nil => simp [aupd, sumVals]
  | cons p t ih =>
    obtain ⟨k', v⟩ := p
    by_cases h : k' = k
    · simp [aupd, h, sumVals, List.map_cons]
      ring
    · simp [aupd, h, sumVals, List.map_cons] at ih ⊢
      rw [ih]
      ring

/-! ### Fold lemmas -/

theorem foldBuckets_eq_allGroups {G S : Type} (step : S → G → S)
    (st : S) (bs : List (Bucket G)) :
    foldBuckets step st bs = (allGroups bs).foldl step st := by
  induction bs generalizing st with
  | nil => rfl
  | cons b t ih =>
    simp [foldBuckets, allGroups, List.foldl_append] at ih ⊢
    exact ih _

theorem lastBucket_map {G H : Type} (f : Bucket G → Bucket H) (b : Bucket G)
    (bs : List (Bucket G)) :
    lastBucket (f b) (bs.map f) = f (lastBucket b bs) := by
  induction bs generalizing b with
  | nil => rfl
  | cons b' t ih => simp [lastBucket, ih]

/-! ### The combined-billing reconciliation invariant (claim C3) -/

theorem detailedStep_regions (st : DetailedData) (g : CostGroup) :
    (detailedStep st g).regions =
      aupd st.regions g.key0 ⟨0, []⟩ (fun e =>
        ⟨e.total + g.amount, aupd e.services (svcName g) 0 (· + g.amount)⟩) :=
  rfl

theorem regInv_step (st : DetailedData) (g : CostGroup) (h : regInv st) :
    regInv (detailedStep st g) := by
  intro r e he
  rw [detailedStep_regions, alookup_aupd] at he
  by_cases hk : g.key0 = r
  · rw [if_pos hk] at he
    simp only [Option.some.injEq] at he
    subst he
    show _ + g.amount = sumVals (aupd _ (svcName g) 0 (· + g.amount))
    rw [sumVals_aupd]
    cases hold : alookup st.regions g.key0 with
    | none => simp [hold, sumVals]
    | some e0 => simp [hold, h _ _ hold]
  · rw [if_neg hk] at he
    exact h _ _ he

theorem regInv_foldl (gs : List CostGroup) (st : DetailedData) (h : regInv st) :
    regInv (gs.foldl detailedStep st) := by
  induction gs generalizing st with
  | nil => exact h
  | cons g t ih => exact ih _ (regInv_step _ _ h)

theorem regInv_emptyActed (p : TimePeriod) :
    regInv { emptyDetailed with period := p } := by
  intro r e he
  simp [emptyDetailed, alookup] at he

theorem regInv_accum (buckets : List (Bucket CostGroup)) :
    regInv (detailedAccum buckets) := by
  cases buckets with
  | nil =>
    intro r e he
    simp [detailedAccum, emptyDetailed, alookup] at he
  | cons b bs =>
    rw [detailedAccum, foldBuckets_eq_allGroups]
    exact regInv_foldl _ _ (regInv_emptyActed _)

theorem format_eq_round (buckets : List (Bucket CostGroup)) :
    format_aws_response_detailed buckets = roundDetailed (detailedAccum buckets) := by
  cases buckets with
  | nil =>
    simp [format_aws_response_detailed, detailedAccum, roundDetailed,
      emptyDetailed, round2_zero]
  | cons b bs => rfl

theorem alookup_roundDetailed (st : DetailedData) (r : String) :
    alookup (roundDetailed st).regions r = (alookup st.regions r).map
      (fun e : RegionEntry =>
        ⟨round2 e.total, e.services.map (fun q => (q.1, round2 q.2))⟩) := by
  unfold roundDetailed
  exact alookup_map (fun e : RegionEntry =>
    (⟨round2 e.total, e.services.map (fun q => (q.1, round2 q.2))⟩ : RegionEntry))
    st.regions r

/-! ### Per-service cells of the region-service breakdown (claim C4) -/

theorem breakdownStep_regions (st : BreakdownData) (g : CostGroup) :
    (breakdownStep st g).regions =
      aupd st.regions g.key0 ⟨0, []⟩ (fun e =>
        ⟨e.total + g.amount, aset e.services (svcName g) (round2 g.amount)⟩) :=
  rfl

theorem svcVal_step_match (st : BreakdownData) (g : CostGroup) (r s : String)
    (h1 : g.key0 = r) (h2 : svcName g = s) :
    svcVal (breakdownStep st g) r s = some (round2 g.amount) := by
  unfold svcVal
  rw [breakdownStep_regions, alookup_aupd, if_pos h1]
  simp [alookup_aset, h2]

theorem svcVal_step_nomatch (st : BreakdownData) (g : CostGroup) (r s : String)
    (h : ¬(g.key0 = r ∧ svcName g = s)) :
    svcVal (breakdownStep st g) r s = svcVal st r s := by
  unfold svcVal
  rw [breakdownStep_regions, alookup_aupd]
  by_cases hk : g.key0 = r
  · rw [if_pos hk, hk]
    have hs : ¬svcName g = s := fun hs => h ⟨hk, hs⟩
    cases hold : alookup st.regions r with
    | none => simp [hold, alookup_aset, hs, alookup]
    | some e0 => simp [hold, alookup_aset, hs]
  · rw [if_neg hk]

theorem svcVal_foldl (gs : List CostGroup) (st : BreakdownData) (r s : String) :
    svcVal (gs.foldl breakdownStep st) r s =
      match lastMatch (matchKeys r s) gs with
      | some g => some (round2 g.amount)
      | none => svcVal st r s := by
  induction gs generalizing st with
  | nil => simp [lastMatch]
  | cons g t ih =>
    rw [List.foldl_cons, ih]
    cases hlm : lastMatch (matchKeys r s) t with
    | some g' => simp [lastMatch, hlm]
    | none =>
      by_cases hp : matchKeys r s g = true
      · simp only [matchKeys, Bool.and_eq_true, beq_iff_eq] at hp
        simp [lastMatch, hlm, matchKeys, hp.1, hp.2,
          svcVal_step_match st g r s hp.1 hp.2]
      · simp only [matchKeys, Bool.and_eq_true, beq_iff_eq, not_and] at hp
        have hna : ¬(g.key0 = r ∧ svcName g = s) := fun hc => hp hc.1 hc.2
        have hb : matchKeys r s g = false := by
          simp [matchKeys]
          intro h1
          exact fun h2 => (hp h1 h2).elim
        simp [lastMatch, hlm, hb, svcVal_step_nomatch st g r s hna]

theorem svcVal_breakdownFormat (buckets : List (Bucket CostGroup)) (r s : String) :
    svcVal (breakdownFormat buckets) r s =
      svcVal (foldBuckets breakdownStep ⟨0, []⟩ buckets) r s := by
  unfold svcVal breakdownFormat
  rw [alookup_map (fun e : RegionEntry => (⟨round2 e.total, e.services⟩ : RegionEntry))]
  cases alookup (foldBuckets breakdownStep ⟨0, []⟩ buckets).regions r <;> simp

/-! ### Zero-group filtering in the resource-usage reshaper (claim C8) -/

theorem usageStep_skip (st : UsageAccum) (g : UsageGroup)
    (hu : g.usage = 0) (hc : g.cost = 0) : usageStep st g = st := by
  simp [usageStep, hu, hc]

theorem usage_foldl_filter (gs : List UsageGroup) (st : UsageAccum) :
    (gs.filter keepGroup).foldl usageStep st = gs.foldl usageStep st := by
  induction gs generalizing st with
  | nil => rfl
  | cons g t ih =>
    cases hk : keepGroup g with
    | true =>
      rw [List.filter_cons_of_pos hk, List.foldl_cons, List.foldl_cons]
      exact ih _
    | false =>
      have hz : g.usage = 0 ∧ g.cost = 0 := by
        have hk' := hk
        simp [keepGroup] at hk'
        exact hk'
      rw [List.filter_cons_of_neg (by simp [hk]), List.foldl_cons,
        usageStep_skip st g hz.1 hz.2]
      exact ih st

theorem foldBuckets_usage_filter (bs : List (Bucket UsageGroup)) (st : UsageAccum) :
    foldBuckets usageStep st (filterZeros bs) = foldBuckets usageStep st bs := by
  induction bs generalizing st with
  | nil => rfl
  | cons b t ih =>
    show foldBuckets usageStep st
      (⟨b.period, b.groups.filter keepGroup⟩ :: filterZeros t) = _
    simp only [foldBuckets, List.foldl_cons]
    rw [usage_foldl_filter]
    exact ih _

theorem format_usage_filterZeros (buckets : List (Bucket UsageGroup)) :
    format_usage_response (filterZeros buckets) = format_usage_response buckets := by
  cases buckets with
  | nil => rfl
  | cons b bs =>
    have hfold : foldBuckets usageStep ⟨[], []⟩
        (⟨b.period, b.groups.filter keepGroup⟩ :: filterZeros bs) =
        foldBuckets usageStep ⟨[], []⟩ (b :: bs) :=
      foldBuckets_usage_filter (b :: bs) ⟨[], []⟩
    have hlast : lastBucket (⟨b.period, b.groups.filter keepGroup⟩ : Bucket UsageGroup)
        (filterZeros bs) =
        ⟨(lastBucket b bs).period, (lastBucket b bs).groups.filter keepGroup⟩ :=
      lastBucket_map (fun b' => ⟨b'.period, b'.groups.filter keepGroup⟩) b bs
    show format_usage_response
      (⟨b.period, b.groups.filter keepGroup⟩ :: filterZeros bs) = _
    simp only [format_usage_response]
    rw [hfold, hlast]

/-! ### Usage-type component extraction (claim C9) -/

theorem pySplit_ne_nil (sep : Char) (l : List Char) : pySplit sep l ≠ [] := by
  cases l with
  | nil => simp [pySplit]
  | cons c cs =>
    unfold pySplit
    cases pySplit sep cs with
    | nil => simp
    | cons p ps => by_cases h : c = sep <;> simp [h]

theorem pySplit_no_sep (sep : Char) (l : List Char) (h : sep ∉ l) :
    pySplit sep l = [l] := by
  induction l with
  | nil => rfl
  | cons c cs ih =>
    have hc : ¬c = sep := fun hc => h (hc ▸ List.mem_cons_self c cs)
    have hcs : sep ∉ cs := fun hm => h (List.mem_cons_of_mem _ hm)
    simp [pySplit, ih hcs, hc]

theorem pySplit_two (sep : Char) (l : List Char) (h : sep ∈ l) :
    ∃ p q ps, pySplit sep l = p :: q :: ps := by
  induction l with
  | nil => cases h
  | cons c cs ih =>
    by_cases hc : c = sep
    · subst hc
      cases hps : pySplit c cs with
      | nil => exact absurd hps (pySplit_ne_nil c cs)
      | cons p ps => exact ⟨[], p, ps, by simp [pySplit, hps]⟩
    · have hcs : sep ∈ cs := by
        cases List.mem_cons.mp h with
        | inl h' => exact absurd h'.symm hc
        | inr h' => exact h'
      obtain ⟨p, q, ps, hps⟩ := ih hcs
      exact ⟨c :: p, q, ps, by simp [pySplit, hps, hc]⟩

theorem pyLast_pySplit_cons (sep c : Char) (cs : List Char) (h : sep ∈ cs) :
    pyLast (pySplit sep (c :: cs)) = pyLast (pySplit sep cs) := by
  obtain ⟨p, q, ps, hps⟩ := pySplit_two sep cs h
  by_cases hc : c = sep
  · simp [pySplit, hps, hc, pyLast]
  · simp [pySplit, hps, hc, pyLast]

theorem pyLast_pySplit_append (sep : Char) (a b : List Char) (h : sep ∉ b) :
    pyLast (pySplit sep (a ++ sep :: b)) = b := by
  induction a with
  | nil =>
    rw [List.nil_append]
    simp [pySplit, pySplit_no_sep sep b h, pyLast]
  | cons c a' ih =>
    have hm : sep ∈ a' ++ sep :: b := by simp
    rw [List.cons_append, pyLast_pySplit_cons sep c _ hm]
    exact ih

/-! ### Claim theorems -/

/-- Claim C1, counterexample: with no supplied credentials, no environment
credentials, `USE_DEMO_DATA="true"` and no fallback switch, `get_daily_cost`
raises a credentials-missing error instead of returning synthetic data, so
not every report operation applies the combined operation's
credential-resolution policy. -/
theorem claim_C1_counterexample :
    resolveOp ReportOp.dailyCost none none false
      ⟨some "true", none, none, none, none⟩ = Decision.credsError ∧
    Decision.credsError ≠ Decision.synthetic := by
  exact ⟨by decide, by decide⟩

/-- Claim C1, amended: only the combined billing operation
(`get_aws_cost_and_usage`) consults `USE_DEMO_DATA` — with no accessKey
and no secretKey and `USE_DEMO_DATA` case-insensitively `"true"` it
returns synthetic data without a live call; every other report operation's
decision is entirely independent of `USE_DEMO_DATA`. -/
theorem claim_C1_amended :
    (∀ env : Env, envFlag env.useDemoData = true →
      resolveOp ReportOp.combined none none false env = Decision.synthetic) ∧
    (∀ op : ReportOp, op ≠ ReportOp.combined →
      ∀ (ak sk : Option String) (fd : Bool) (env : Env) (v : Option String),
        resolveOp op ak sk fd { env with useDemoData := v } =
          resolveOp op ak sk fd env) := by
  constructor
  · intro env h
    simp [resolveOp, resolveCombined, h]
  · intro op hop ak sk fd env v
    cases op with
    | combined => exact absurd rfl hop
    | dailyUsage => rfl
    | dailyCost => rfl
    | serviceCost => rfl
    | regionCost => rfl
    | regionServiceBreakdown => rfl
    | resourceUsage => rfl

/-- Witness for the amended claim C1 at a concrete environment. -/
theorem claim_C1_amended_witness :
    resolveOp ReportOp.combined none none false
      ⟨some "true", none, none, none, none⟩ = Decision.synthetic :=
  claim_C1_amended.1 ⟨some "true", none, none, none, none⟩ (by decide)

/-- Claim C2: for every report operation, every credential combination and
every environment, a true `forceDemo` flag yields synthetic data and no
live call is ever attempted (even when both keys are supplied and even if
a live call would have failed). -/
theorem claim_C2 :
    (∀ (op : ReportOp) (ak sk : Option String) (env : Env),
      resolveOp op ak sk true env = Decision.synthetic) ∧
    (∀ (op : ReportOp) (ak sk : Option String) (env : Env) (liveFails : Bool),
      runOp op ak sk true env liveFails = Outcome.synthetic) := by
  constructor
  · intro op ak sk env
    cases op <;> rfl
  · intro op ak sk env liveFails
    cases op <;> rfl

/-- Claim C3: in the combined billing view, every region's rounded total
is the single rounding of that region's unrounded total, which equals the
sum of the region's unrounded per-service sums (rounding after summation);
and the two-bucket `("us-east-1","EC2",10.004)` scenario yields
`total = 20.01` and `services["EC2"] = 20.01`. -/
theorem claim_C3 :
    (∀ (buckets : List (Bucket CostGroup)) (r : String) (e : RegionEntry),
      alookup (format_aws_response_detailed buckets).regions r = some e →
      ∃ pe : RegionEntry,
        alookup (detailedAccum buckets).regions r = some pe ∧
        pe.total = sumVals pe.services ∧
        e.total = round2 (sumVals pe.services) ∧
        e.services = pe.services.map (fun q => (q.1, round2 q.2))) ∧
    format_aws_response_detailed
      [⟨⟨"2024-01-01", "2024-01-02"⟩, [⟨"us-east-1", ["EC2"], 10.004⟩]⟩,
       ⟨⟨"2024-01-02", "2024-01-03"⟩, [⟨"us-east-1", ["EC2"], 10.004⟩]⟩] =
      ⟨20.01, [("us-east-1", ⟨20.01, [("EC2", 20.01)]⟩)], [("EC2", 20.01)],
        ⟨"2024-01-01", "2024-01-03"⟩⟩ := by
  constructor
  · intro buckets r e he
    rw [format_eq_round, alookup_roundDetailed] at he
    cases hpe : alookup (detailedAccum buckets).regions r with
    | none => rw [hpe] at he; cases he
    | some pe =>
      rw [hpe] at he
      simp only [Option.map_some', Option.some.injEq] at he
      subst he
      have hinv := regInv_accum buckets r pe hpe
      exact ⟨pe, rfl, hinv, by rw [← hinv], rfl⟩
  · have e1 : (10.004 : ℚ) + 10.004 = 20.008 := by norm_num
    have e2 : round2 20.008 = 20.01 := by
      rw [round2_eq_high _ 2000 (by norm_num) (by norm_num) (by norm_num)]
      norm_num
    simp [format_aws_response_detailed, detailedAccum, roundDetailed,
      foldBuckets, detailedStep, aupd, svcName, emptyDetailed, lastBucket,
      e1, e2]

/-- Witness for claim C3's universal part at the two-bucket scenario. -/
theorem claim_C3_witness :
    ∃ pe : RegionEntry,
      alookup (detailedAccum
        [⟨⟨"2024-01-01", "2024-01-02"⟩, [⟨"us-east-1", ["EC2"], 10.004⟩]⟩,
         ⟨⟨"2024-01-02", "2024-01-03"⟩, [⟨"us-east-1", ["EC2"], 10.004⟩]⟩]).regions
        "us-east-1" = some pe ∧
      pe.total = sumVals pe.services ∧
      (⟨(20.01 : ℚ), [("EC2", (20.01 : ℚ))]⟩ : RegionEntry).total =
        round2 (sumVals pe.services) ∧
      (⟨(20.01 : ℚ), [("EC2", (20.01 : ℚ))]⟩ : RegionEntry).services =
        pe.services.map (fun q => (q.1, round2 q.2)) :=
  claim_C3.1 _ "us-east-1" ⟨20.01, [("EC2", 20.01)]⟩
    (by rw [claim_C3.2]; simp [alookup])

/-- Claim C4, counterexample: in `get_region_service_breakdown` a
(region, service) pair seen in two buckets with amount 10 each ends up
with per-service value 10 (the last group's amount, rounded per group),
not the accumulated 20, refuting the claim that per-service values
accumulate across buckets and are rounded once at the end. -/
theorem claim_C4_counterexample :
    svcVal (breakdownFormat
      [⟨⟨"2024-01-01", "2024-02-01"⟩, [⟨"us-east-1", ["EC2"], 10⟩]⟩,
       ⟨⟨"2024-02-01", "2024-03-01"⟩, [⟨"us-east-1", ["EC2"], 10⟩]⟩])
      "us-east-1" "EC2" = some 10 ∧
    round2 (10 + 10) = 20 ∧ (10 : ℚ) ≠ 20 := by
  refine ⟨?_, ?_, by norm_num⟩
  · have r10 : round2 (10 : ℚ) = 10 := by
      rw [round2_eq_low 10 1000 (by norm_num) (by norm_num)]
      norm_num
    simp [breakdownFormat, foldBuckets, breakdownStep, aupd, aset, svcVal,
      alookup, svcName, r10]
  · rw [round2_eq_low (10 + 10 : ℚ) 2000 (by norm_num) (by norm_num)]
    norm_num

/-- Claim C4, amended: in the region-service breakdown, each per-service
output value is the amount of the **last** group with that
(region, service) key pair, rounded at assignment time (per group) —
assignment overwrites instead of accumulating; region totals and
`total_cost` do accumulate. -/
theorem claim_C4_amended :
    ∀ (buckets : List (Bucket CostGroup)) (r s : String),
      svcVal (breakdownFormat buckets) r s =
        (lastMatch (matchKeys r s) (allGroups buckets)).map
          (fun g => round2 g.amount) := by
  intro buckets r s
  rw [svcVal_breakdownFormat, foldBuckets_eq_allGroups, svcVal_foldl]
  cases lastMatch (matchKeys r s) (allGroups buckets) <;> simp [svcVal, alookup]

/-- Claim C5: on an empty raw report both the combined billing reshaper
and the resource-usage reshaper return their zero-value shapes (empty
maps, zero `total_cost` where present, empty period strings) and never
raise. -/
theorem claim_C5 :
    format_aws_response_detailed [] = ⟨0, [], [], ⟨"", ""⟩⟩ ∧
    format_usage_response [] = ⟨[], [], ⟨"", ""⟩⟩ :=
  ⟨rfl, rfl⟩

/-- Claim C6: for every report operation with `forceDemo` false, when the
demo branch does not apply and a resolved key is missing (falsy after the
direct-argument-else-environment resolution), the operation returns
synthetic data if `FALLBACK_TO_DEMO` is `"true"` and otherwise fails with
a credentials-missing error; no live call is attempted. -/
theorem claim_C6 :
    ∀ (op : ReportOp) (ak sk : Option String) (env : Env),
      ((ak.isSome && sk.isSome) = true ∨ envFlag env.useDemoData = false) →
      (truthy (pyOr ak env.awsAccessKeyId) = false ∨
        truthy (pyOr sk env.awsSecretAccessKey) = false) →
      resolveOp op ak sk false env =
        (if envFlag env.fallbackToDemo then Decision.synthetic
         else Decision.credsError) := by
  intro op ak sk env hd hm
  cases hd with
  | inl hA =>
    cases hm with
    | inl h =>
      cases op <;> simp [resolveOp, resolveCombined, resolveStandard, hA, h]
    | inr h =>
      cases op <;> simp [resolveOp, resolveCombined, resolveStandard, hA, h]
  | inr hU =>
    cases hm with
    | inl h =>
      cases op <;> simp [resolveOp, resolveCombined, resolveStandard, hU, h]
    | inr h =>
      cases op <;> simp [resolveOp, resolveCombined, resolveStandard, hU, h]

/-- Witness for claim C6: no credentials anywhere and
`FALLBACK_TO_DEMO="true"` yields synthetic data. -/
theorem claim_C6_witness :
    resolveOp ReportOp.serviceCost none none false
      ⟨none, none, none, none, some "true"⟩ = Decision.synthetic := by
  have h := claim_C6 ReportOp.serviceCost none none
    ⟨none, none, none, none, some "true"⟩ (Or.inr (by decide)) (Or.inl (by decide))
  rw [h]
  decide

/-- Claim C7: for every report operation whose resolution chose a live
call, a failing live call yields fully synthetic data when
`FALLBACK_TO_DEMO` is `"true"` and otherwise propagates as a provider
error; a succeeding live call yields the live result — there is no
partially-live outcome. -/
theorem claim_C7 :
    ∀ (op : ReportOp) (ak sk : Option String) (fd : Bool) (env : Env)
      (a s r : String),
      resolveOp op ak sk fd env = Decision.live a s r →
      (runOp op ak sk fd env true =
        (if envFlag env.fallbackToDemo then Outcome.synthetic
         else Outcome.providerError)) ∧
      runOp op ak sk fd env false = Outcome.liveOk := by
  intro op ak sk fd env a s r h
  constructor <;> simp [runOp, h]

/-- Witness for claim C7 with environment credentials and no fallback:
a failing live call propagates as a provider error. -/
theorem claim_C7_witness :
    runOp ReportOp.regionCost none none false
      ⟨none, some "AK", some "SK", none, none⟩ true = Outcome.providerError ∧
    runOp ReportOp.regionCost none none false
      ⟨none, some "AK", some "SK", none, none⟩ false = Outcome.liveOk := by
  have h := claim_C7 ReportOp.regionCost none none false
    ⟨none, some "AK", some "SK", none, none⟩ "AK" "SK" "us-east-1" (by decide)
  exact ⟨by rw [h.1]; decide, h.2⟩

/-- Claim C8: the resource-usage reshaper drops groups whose usage and
cost amounts are both exactly zero (removing them changes nothing),
retains a group with zero usage but positive cost, while the combined
billing reshaper and the region-service breakdown keep zero-amount
groups in their outputs. -/
theorem claim_C8 :
    (∀ buckets : List (Bucket UsageGroup),
      format_usage_response (filterZeros buckets) = format_usage_response buckets) ∧
    (∀ (svc ut : String) (c : ℚ) (un : String) (tp : TimePeriod),
      0 < c →
      format_usage_response [⟨tp, [⟨svc, ut, 0, c, un⟩]⟩] =
        ⟨[("Global/Linked", [(svc, [⟨componentOf ut, 0, round2 c, un⟩])])],
         [(svc, [⟨componentOf ut, 0, round2 c, un⟩])], tp⟩) ∧
    (∀ (r s : String) (tp : TimePeriod),
      alookup (format_aws_response_detailed [⟨tp, [⟨r, [s], 0⟩]⟩]).regions r =
        some ⟨0, [(s, 0)]⟩) ∧
    (∀ (r s : String) (tp : TimePeriod),
      alookup (breakdownFormat [⟨tp, [⟨r, [s], 0⟩]⟩]).regions r =
        some ⟨0, [(s, 0)]⟩) := by
  refine ⟨format_usage_filterZeros, ?_, ?_, ?_⟩
  · intro svc ut c un tp hc
    simp [format_usage_response, foldBuckets, usageStep, aupd, lastBucket,
      hc.ne', round2_zero]
  · intro r s tp
    simp [format_aws_response_detailed, detailedAccum, roundDetailed,
      foldBuckets, detailedStep, aupd, svcName, emptyDetailed, alookup,
      lastBucket, round2_zero]
  · intro r s tp
    simp [breakdownFormat, foldBuckets, breakdownStep, aupd, aset, svcName,
      alookup, lastBucket, round2_zero]

/-- Witness for claim C8's retention part: a zero-usage, cost-5 group is
retained in both outputs. -/
theorem claim_C8_witness :
    0 < (5 : ℚ) ∧
    format_usage_response
      [⟨⟨"2024-01-01", "2024-02-01"⟩,
        [⟨"Amazon S3", "USW2-EBS:VolumeUsage", 0, 5, "GB"⟩]⟩] =
      ⟨[("Global/Linked", [("Amazon S3",
          [⟨componentOf "USW2-EBS:VolumeUsage", 0, round2 5, "GB"⟩])])],
       [("Amazon S3", [⟨componentOf "USW2-EBS:VolumeUsage", 0, round2 5, "GB"⟩])],
       ⟨"2024-01-01", "2024-02-01"⟩⟩ :=
  ⟨by norm_num, claim_C8.2.1 "Amazon S3" "USW2-EBS:VolumeUsage" 5 "GB"
    ⟨"2024-01-01", "2024-02-01"⟩ (by norm_num)⟩

/-- Claim C9: the display component of a usageType is the substring after
the last `':'` when one is present and the whole string otherwise;
`"USW2-EBS:VolumeUsage"` yields `"VolumeUsage"` and `"Requests-Tier1"` is
unchanged. -/
theorem claim_C9 :
    (∀ a b : List Char, ':' ∉ b →
      componentOf ⟨a ++ ':' :: b⟩ = ⟨b⟩) ∧
    (∀ s : String, ':' ∉ s.data → componentOf s = s) ∧
    componentOf "USW2-EBS:VolumeUsage" = "VolumeUsage" ∧
    componentOf "Requests-Tier1" = "Requests-Tier1" := by
  refine ⟨?_, ?_, by decide, by decide⟩
  · intro a b hb
    have hmem : ':' ∈ (String.mk (a ++ ':' :: b)).data := by simp
    unfold componentOf
    rw [if_pos hmem]
    rw [show (String.mk (a ++ ':' :: b)).data = a ++ ':' :: b from rfl,
      pyLast_pySplit_append ':' a b hb]
  · intro s hs
    unfold componentOf
    rw [if_neg hs]

/-- Witness for claim C9's universal parts at concrete character lists. -/
theorem claim_C9_witness :
    ':' ∉ ['V', 'U'] ∧
    componentOf ⟨['A', 'B'] ++ ':' :: ['V', 'U']⟩ = ⟨['V', 'U']⟩ :=
  ⟨by decide, claim_C9.1 ['A', 'B'] ['V', 'U'] (by decide)⟩

/-- Claim C10: a group whose Keys list has a single element does not make
the combined billing reshaper fail: the key becomes the region, the
service is the literal `"Unknown"`, and the amount is accumulated into
the region total, the per-service entry, the consolidated entry and
`total_cost`. -/
theorem claim_C10 :
    ∀ (r : String) (a : ℚ) (tp : TimePeriod),
      format_aws_response_detailed [⟨tp, [⟨r, [], a⟩]⟩] =
        ⟨round2 a, [(r, ⟨round2 a, [("Unknown", round2 a)]⟩)],
         [("Unknown", round2 a)], tp⟩ := by
  intro r a tp
  simp [format_aws_response_detailed, detailedAccum, roundDetailed,
    foldBuckets, detailedStep, aupd, svcName, emptyDetailed, lastBucket]

end AwsBill

